import Mathlib

/-!
# Field-Masked Bidirectional Record Synchronizer — verification development

Shallow embedding of `src/gdpr_compliant_bitrix24_synchronization_implementation.python`
(`bitrix_sync/service.py`): the GDPR masking transform, the Bitrix24 client
operations, and the `sync_church_contacts` pass of `BitrixSyncService`.

Modelling conventions:
* Python/JSON values are modelled by `Value`.  The source never reads more than
  one map level deep (flat maps of scalars, and arrays of flat maps such as the
  Bitrix `PHONE`/`EMAIL` fields), so `Value` is stratified accordingly.
* Fallible Python code (statements that can raise) is modelled in
  `Except String`; the error string carries the exception class/message.
* `json.loads`/`json.dumps` on the Bitrix custom fields are modelled as the
  identity on already-structured `Value`s (the wire holds the JSON encoding of
  exactly these values).
* `time.sleep` delays are recorded in a trace (`RequestTrace.delays`), in `ℚ`
  since `RETRY_DELAY = 1.5` seconds.
* The module never executes `import re`, so `mask_phone` raises `NameError`
  whenever it reaches `re.sub`, i.e. for every truthy phone value.
* Logging is modelled as an explicit list of `LogEntry` (level and message)
  returned next to the result where a claim depends on it.
-/

/-- JSON-like values as manipulated by the source: `None`, strings, flat
string-keyed maps of scalars, and arrays of flat maps (Bitrix multi-fields). -/
inductive Scalar where
  | snone
  | sstr (s : String)
deriving DecidableEq, Repr

inductive Value where
  | vnone
  | str (s : String)
  | vmap (m : List (String × Scalar))
  | varr (l : List (List (String × Scalar)))
deriving DecidableEq, Repr

/-- A Python dict with string keys, in insertion order (top-level records). -/
abbrev Rec := List (String × Value)

/-- First-occurrence lookup in an association list (Python `d[k]` / `d.get(k)`). -/
def lookupKey? {α : Type} (k : String) : List (String × α) → Option α
  | [] => none
  | (k', v) :: rest => if k = k' then some v else lookupKey? k rest

/-- Python `d[k]`: raises `KeyError` when the key is absent. -/
def keyGet (r : Rec) (k : String) : Except String Value :=
  match lookupKey? k r with
  | some v => .ok v
  | none => .error ("KeyError: " ++ k)

/-- Python `d.get(k, default)`. -/
def getD (r : Rec) (k : String) (d : Value) : Value :=
  (lookupKey? k r).getD d

/-- Python `d.get(k, default)` on a flat map. -/
def getSD (m : List (String × Scalar)) (k : String) (d : Scalar) : Scalar :=
  (lookupKey? k m).getD d

/-- Python dict assignment `d[k] = v`: replaces the first occurrence in place,
appends when the key is absent (insertion-order semantics). -/
def setKey (r : Rec) (k : String) (v : Value) : Rec :=
  match r with
  | [] => [(k, v)]
  | (k', v') :: rest => if k' = k then (k', v) :: rest else (k', v') :: setKey rest k v

/-- The key sequence of a record. -/
def keysOf {α : Type} (r : List (String × α)) : List String := r.map Prod.fst

/-- Python truthiness for scalars. -/
def Scalar.truthy : Scalar → Bool
  | .snone => false
  | .sstr s => s ≠ ""

/-- Python truthiness for values. -/
def Value.truthy : Value → Bool
  | .vnone => false
  | .str s => s ≠ ""
  | .vmap m => m ≠ []
  | .varr l => l ≠ []

/-- Embeds a scalar into `Value`. -/
def Value.ofScalar : Scalar → Value
  | .snone => .vnone
  | .sstr s => .str s

/-- Log levels of the `bitrix_sync.gdpr` logger calls appearing in the source. -/
inductive LogLevel where
  | info
  | warning
  | error
deriving DecidableEq, Repr

structure LogEntry where
  level : LogLevel
  msg : String
deriving DecidableEq, Repr

/-- A masking transform: a field value to its masked form, or a raised
exception (`Except.error`). -/
abbrev Masker := Value → Except String Value

/-- Python `'/' in s` for a one-character needle: character membership. -/
def strContainsChar (s : String) (c : Char) : Bool := s.data.contains c

/-- Python `s.split(c)[0]`: the prefix of `s` before the first `c`. -/
def strBefore (s : String) (c : Char) : String := ⟨s.data.takeWhile (fun ch => ch ≠ c)⟩

/-- Python `s[:n]`. -/
def strTake (s : String) (n : Nat) : String := ⟨s.data.take n⟩

/-- The `religion` rule of `mask_special_category_data`:
`lambda x: x.split('/')[0] if x and '/' in x else x`. -/
def religion_rule : Masker := fun x =>
  match x with
  | .str s => if s ≠ "" ∧ strContainsChar s '/' then .ok (.str (strBefore s '/')) else .ok x
  | .vnone => .ok x
  | .vmap m =>
      if (lookupKey? "/" m).isSome then .error "AttributeError: dict has no attribute split"
      else .ok x
  | .varr _ => .ok x

/-- The `sacrament_dates` rule:
`lambda x: {k: v[:4] for k, v in x.items()} if x else {}`. -/
def sacrament_dates_rule : Masker := fun x =>
  if ¬ x.truthy then .ok (.vmap []) else
    match x with
    | .vmap m => do
        let entries ← m.mapM (fun kv =>
          match kv.2 with
          | .sstr s => Except.ok (kv.1, Scalar.sstr (strTake s 4))
          | .snone => Except.error "TypeError: NoneType is not subscriptable")
        .ok (.vmap entries)
    | _ => .error "AttributeError: no attribute items"

/-- The `burial_location` rule:
`lambda x: {'cemetery': x.get('cemetery'), 'section': x.get('section')} if x else None`. -/
def burial_location_rule : Masker := fun x =>
  if ¬ x.truthy then .ok .vnone else
    match x with
    | .vmap m => .ok (.vmap [("cemetery", getSD m "cemetery" .snone),
                             ("section", getSD m "section" .snone)])
    | _ => .error "AttributeError: no attribute get"

/-- `mask_phone`: the module never imports `re`, so the `re.sub` call raises
`NameError` for every truthy phone; falsy phones return `None` first. -/
def mask_phone : Scalar → Except String Scalar := fun phone =>
  if ¬ phone.truthy then .ok .snone
  else .error "NameError: name re is not defined"

/-- The Lithuanian `next_of_kin` rule: redacts the name for spouses and masks
the phone via `mask_phone` (which raises `NameError`, see above). -/
def next_of_kin_rule : Masker := fun x =>
  if ¬ x.truthy then .ok .vnone else
    match x with
    | .vmap m => do
        let name : Scalar :=
          if getSD m "relationship" .snone = .sstr "spouse" then .sstr "REDACTED"
          else getSD m "name" .snone
        let ph ← mask_phone (getSD m "phone" .snone)
        .ok (.vmap [("name", name), ("phone", ph)])
    | _ => .error "AttributeError: no attribute get"

/-- The `special_fields` rule dictionary of `mask_special_category_data`, in
insertion order; for `country_code == 'LT'` the update appends the two extra
rules, with `confession_records` mapped to `None` (no transform). -/
def special_fields (country_code : String) : List (String × Option Masker) :=
  let base : List (String × Option Masker) :=
    [("religion", some religion_rule),
     ("sacrament_dates", some sacrament_dates_rule),
     ("burial_location", some burial_location_rule)]
  if country_code = "LT" then
    base ++ [("next_of_kin", some next_of_kin_rule), ("confession_records", none)]
  else base

/-- One iteration of the `for field, masker in special_fields.items()` loop:
guarded by `field in masked and masker is not None`; a raising transform is
caught, logged via `logger.error`, and the field is nulled (fail-safe). -/
def maskLoopStep (acc : Rec × List LogEntry) (fr : String × Option Masker) : Rec × List LogEntry :=
  match fr.2 with
  | none => acc
  | some masker =>
      match lookupKey? fr.1 acc.1 with
      | none => acc
      | some v =>
          match masker v with
          | .ok v' => (setKey acc.1 fr.1 v', acc.2)
          | .error e =>
              (setKey acc.1 fr.1 .vnone,
               acc.2 ++ [⟨.error, "Masking failed for " ++ fr.1 ++ ": " ++ e⟩])

/-- The application loop of `mask_special_category_data` over a rule list. -/
def applyMasking (rules : List (String × Option Masker)) (acc : Rec × List LogEntry) :
    Rec × List LogEntry :=
  match rules with
  | [] => acc
  | fr :: rest => applyMasking rest (maskLoopStep acc fr)

/-- `mask_special_category_data(data, country_code)`: copies the record and
applies the country's rule set; also returns the log entries it emits. -/
def mask_special_category_data (data : Rec) (country_code : String) : Rec × List LogEntry :=
  applyMasking (special_fields country_code) (data, [])

/-- Characterization helper (not part of the source): the net effect of the
rule set on a single field's value, including the fail-safe nulling. -/
def maskStep (rule? : Option (Option Masker)) (v : Value) : Value :=
  match rule? with
  | some (some m) =>
      match m v with
      | .ok v' => v'
      | .error _ => Value.vnone
  | _ => v

/-- Characterization helper: the log entry a rule emits against the original
record, if any. -/
def maskLogOf (d : Rec) (fr : String × Option Masker) : Option LogEntry :=
  match fr.2 with
  | none => none
  | some m =>
      match lookupKey? fr.1 d with
      | none => none
      | some v =>
          match m v with
          | .ok _ => none
          | .error e => some ⟨.error, "Masking failed for " ++ fr.1 ++ ": " ++ e⟩

/-- The prohibited-field list checked by `update_contact`. -/
def prohibited_fields : List String := ["confession_records", "exact_burial_coordinates"]

/-- The `{k: v[:4] for k, v in x.items()}` comprehension inside
`update_contact` (unlike `sacrament_dates_rule`, with no falsy guard: a
non-dict raises). -/
def sliceYear (x : Value) : Except String Value :=
  match x with
  | .vmap m => do
      let entries ← m.mapM (fun kv =>
        match kv.2 with
        | .sstr s => Except.ok (kv.1, Scalar.sstr (strTake s 4))
        | .snone => Except.error "TypeError: NoneType is not subscriptable")
      .ok (.vmap entries)
  | _ => .error "AttributeError: no attribute items"

/-- The `{'cemetery': x.get('cemetery'), 'section': x.get('section')}`
construction inside `update_contact` (no falsy guard: a non-dict raises). -/
def burialDump (x : Value) : Except String Value :=
  match x with
  | .vmap m => .ok (.vmap [("cemetery", getSD m "cemetery" .snone),
                           ("section", getSD m "section" .snone)])
  | _ => .error "AttributeError: no attribute get"

/-- Scalar view of a value; the local `phone`/`email` columns pushed into the
Bitrix `VALUE` slots are scalar character fields, so the map/array cases do
not occur on this path. -/
def Value.toScalar : Value → Scalar
  | .vnone => .snone
  | .str s => .sstr s
  | .vmap _ => .snone
  | .varr _ => .snone

/-- `Bitrix24Client.update_contact` (GDPR-decorated remote update), modelled up
to and including the construction of the transmitted `fields` payload; the
surrounding retry/transport is the caller's `RemoteEnv.update`.  Raises
`GDPRComplianceError` on prohibited fields.  The broken parameter name
`contact_` in the source is read as `contact_data`, per the surrounding code. -/
def update_contact (contact_id : Value) (contact_data : Rec) : Except String Rec :=
  if prohibited_fields.any (fun f => (lookupKey? f contact_data).isSome) then
    .error "GDPRComplianceError: Attempt to store prohibited fields: confession_records, exact_burial_coordinates"
  else do
    let base : Rec :=
      [("ID", contact_id),
       ("NAME", getD contact_data "first_name" (.str "")),
       ("LAST_NAME", getD contact_data "last_name" (.str "")),
       ("PHONE", .varr [[("VALUE", (getD contact_data "phone" (.str "")).toScalar),
                         ("VALUE_TYPE", .sstr "WORK")]]),
       ("EMAIL", .varr [[("VALUE", (getD contact_data "email" (.str "")).toScalar),
                         ("VALUE_TYPE", .sstr "WORK")]]),
       ("UF_CRM_1565773321", getD contact_data "religion" .vnone)]
    let withSacrament ←
      if (lookupKey? "sacrament_dates" contact_data).isSome then do
        let v ← sliceYear (getD contact_data "sacrament_dates" .vnone)
        Except.ok (setKey base "UF_CRM_1565773389" v)
      else Except.ok base
    let withBurial ←
      if (lookupKey? "burial_location" contact_data).isSome then do
        let v ← burialDump (getD contact_data "burial_location" .vnone)
        Except.ok (setKey withSacrament "UF_CRM_1565773407" v)
      else Except.ok withSacrament
    .ok withBurial

/-- A row of the `GDPRConsent` model, with the fields the source reads. -/
structure Consent where
  country_code : String
  processing_purpose : String
  granted_at : Nat
  bitrix_contact_id : Value
  erasure_requested : Bool
  erasure_processed : Bool
  processed_at : Option Nat
deriving DecidableEq, Repr

/-- A `Church` row, as read through `contact.church` (`bitrix_id`,
`country_code`). -/
structure ChurchRef where
  bitrix_id : Value
  country_code : String
deriving DecidableEq, Repr

/-- A `Contact` row with the columns the source reads and writes;
`created_at`/`updated_at` are the Django auto timestamps (`updated_at` is
refreshed on `save`, not by queryset `update`). -/
structure LocalContact where
  pk : Nat
  bitrix_id : Option Value
  first_name : Value
  last_name : Value
  phone : Value
  email : Value
  church : ChurchRef
  religion : Value
  sacrament_records : Value
  burial_location : Value
  erasure_processed : Bool
  created_at : Nat
  updated_at : Nat
deriving DecidableEq, Repr

/-- The `stats` dictionary of `sync_church_contacts`. -/
structure Stats where
  created : Nat
  updated : Nat
  deleted : Nat
  errors : Nat
deriving DecidableEq, Repr

/-- A `BitrixSyncRecord` row (`timestamp` is the creation time). -/
structure SyncRecordEntry where
  entity_type : String
  country_code : String
  status : String
  stats : Option Stats
  error_message : Option String
  timestamp : Nat
deriving DecidableEq, Repr

/-- A `DataProcessingRecord` row (GDPR Article 30 log). -/
structure ProcessingRecord where
  entity_type : String
  entity_id : Nat
  operation : String
  country_code : String
  processing_purpose : String
  timestamp : Nat
deriving DecidableEq, Repr

/-- A `SpecialCategoryData` row created before an erasure deletion. -/
structure Snapshot where
  country_code : String
  entity_type : String
  entity_id : Value
  data_snapshot : Rec
  deletion_reason : String
deriving DecidableEq, Repr

/-- The local Django database as touched by the sync service. -/
structure SyncState where
  contacts : List LocalContact
  churches : List ChurchRef
  consents : List Consent
  sync_records : List SyncRecordEntry
  processing_records : List ProcessingRecord
  snapshots : List Snapshot
  next_pk : Nat
deriving DecidableEq, Repr

/-- The Django settings the embedded code paths read. -/
structure Settings where
  cloud_env : String
deriving DecidableEq, Repr

/-- The remote Bitrix24 endpoint, as the post-retry outcome of each
`_make_request` call: either the parsed response or the `BitrixAPIError`
raised after the retry budget (attempt-level mechanics are modelled separately
by `make_request`). -/
structure RemoteEnv where
  list_contacts : Option Nat → Except String (List Rec)
  get_contact : Value → Except String Rec
  update : Rec → Except String Unit
  delete : Value → Except String Unit

/-- The literal string the `@gdpr_compliance_check(country_code='country_code_param')`
decorations pass for `country_code` on `get_contacts`, `update_contact` and
`delete_contact`. -/
def GDPR_DECORATOR_COUNTRY : String := "country_code_param"

/-- The `gdpr_compliance_check` decorator body.  Every modelled call site
passes `processing_purpose`, so the missing-kwarg branch is never taken.  The
consent window `granted_at >= now - 365 days` is `now ≤ granted_at + 365` with
time counted in days. -/
def gdpr_check (cloud_env : String) (consents : List Consent) (processing_purpose : String)
    (requires_consent : Bool) (now : Nat) : Except String Unit :=
  if cloud_env = "GKE" ∧ GDPR_DECORATOR_COUNTRY ≠ "global" then
    .error ("DataSovereigntyViolation: Stateless processing attempted for "
      ++ GDPR_DECORATOR_COUNTRY ++ " data in GKE")
  else if requires_consent ∧
      ¬ consents.any (fun c => c.country_code == GDPR_DECORATOR_COUNTRY
        && c.processing_purpose == processing_purpose
        && decide (now ≤ c.granted_at + 365)) then
    .error ("GDPRComplianceError: Missing valid consent for purpose " ++ processing_purpose)
  else .ok ()

/-- The `contact.get('PHONE', [{}])[0].get('VALUE', '') if contact.get('PHONE') else ''`
extraction of `_mask_contact_data` (same shape for `EMAIL`). -/
def extractFirstValue (ov : Option Value) : Except String Value :=
  match ov with
  | none => .ok (.str "")
  | some v =>
      if ¬ v.truthy then .ok (.str "") else
        match v with
        | .varr (first :: _) => .ok (Value.ofScalar (getSD first "VALUE" (.sstr "")))
        | .varr [] => .error "IndexError: list index out of range"
        | .vmap _ => .error "KeyError: 0"
        | _ => .error "AttributeError: no attribute get"

/-- `Bitrix24Client._mask_contact_data`: maps a raw Bitrix contact to the
standard field names and applies `mask_special_category_data`.  `contact['ID']`
raises `KeyError` when absent; the `PHONE`/`EMAIL` extraction can raise as in
`extractFirstValue`.  Note the produced record has exactly the eight standard
keys — in particular no `church_id` key. -/
def _mask_contact_data (country_code : String) (contact : Rec) :
    Except String (Rec × List LogEntry) := do
  let idv ← keyGet contact "ID"
  let phone ← extractFirstValue (lookupKey? "PHONE" contact)
  let email ← extractFirstValue (lookupKey? "EMAIL" contact)
  let std : Rec :=
    [("id", idv),
     ("first_name", getD contact "NAME" (.str "")),
     ("last_name", getD contact "LAST_NAME" (.str "")),
     ("phone", phone),
     ("email", email),
     ("religion", getD contact "UF_CRM_1565773321" .vnone),
     ("sacrament_dates", getD contact "UF_CRM_1565773389" (.vmap [])),
     ("burial_location", getD contact "UF_CRM_1565773407" .vnone)]
  .ok (mask_special_category_data std country_code)

/-- List-comprehension semantics over `Except`: left to right, aborting on the
first raised exception. -/
def mapExcept {α β : Type} (f : α → Except String β) : List α → Except String (List β)
  | [] => .ok []
  | a :: as => do
      let b ← f a
      let bs ← mapExcept f as
      .ok (b :: bs)

/-- `Bitrix24Client.get_contacts`: decorator check, remote list call (the
`filter[>DATE_MODIFY]` parameter is the `last_sync` argument), then per-contact
masking. -/
def get_contacts (settings : Settings) (consents : List Consent) (country_code : String)
    (last_sync : Option Nat) (processing_purpose : String) (env : RemoteEnv) (now : Nat) :
    Except String (List Rec) := do
  gdpr_check settings.cloud_env consents processing_purpose true now
  let result ← env.list_contacts last_sync
  let masked ← mapExcept (_mask_contact_data country_code) result
  .ok (masked.map Prod.fst)

/-- Largest element of a list of timestamps, if any. -/
def natMax? (l : List Nat) : Option Nat :=
  l.foldr (fun t acc => some (match acc with | none => t | some m => max t m)) none

/-- Modelled from the spec: `BitrixSyncRecord.get_last_sync` is declared in the
missing `models` module (only its caller is in the source).  The spec defines
the checkpoint as "the timestamp of the last successful synchronization"
(SyncCheckpoint, §3; read in §4.1 step 1), so it is the latest `timestamp`
among sync records with `status = 'success'` for the entity type and
partition. -/
def get_last_sync (st : SyncState) (entity_type : String) (country_code : String) : Option Nat :=
  natMax? ((st.sync_records.filter
      (fun r => r.entity_type == entity_type && r.country_code == country_code
        && r.status == "success")).map SyncRecordEntry.timestamp)

/-- `BitrixSyncService._is_erasure_requested`: a pending (unprocessed) erasure
request exists for this Bitrix contact id. -/
def _is_erasure_requested (consents : List Consent) (bitrix_id : Value) : Bool :=
  consents.any (fun c => c.bitrix_contact_id == bitrix_id
    && c.erasure_requested && !c.erasure_processed)

/-- `Bitrix24Client.delete_contact` (Article 17 erasure): decorator check with
`requires_consent=False`, purpose guard, best-effort snapshot (its inner
`try/except` absorbs any failure), then the remote delete. -/
def delete_contact (settings : Settings) (env : RemoteEnv) (country_code : String)
    (st : SyncState) (contact_id : Value) (processing_purpose : String) (now : Nat) :
    Except String SyncState := do
  gdpr_check settings.cloud_env st.consents processing_purpose false now
  if processing_purpose ≠ "ARTICLE_17_ERASURE" then
    .error "GDPRComplianceError: Delete operation requires ARTICLE_17_ERASURE processing purpose"
  else do
    let st1 :=
      match env.get_contact contact_id with
      | .ok contact =>
          { st with snapshots := st.snapshots ++
              [⟨country_code, "contact", contact_id,
                (mask_special_category_data contact country_code).1, "GDPR_ARTICLE_17"⟩] }
      | .error _ => st
    let _ ← env.delete contact_id
    .ok st1

/-- `BitrixSyncService._process_erasure`: mark matching consents processed,
delete remotely, anonymize the local rows.  Queryset `update` does not touch
the `updated_at` auto field. -/
def _process_erasure (settings : Settings) (env : RemoteEnv) (country_code : String)
    (st : SyncState) (bitrix_id : Value) (now : Nat) : Except String SyncState := do
  let consents' := st.consents.map (fun c =>
    if c.bitrix_contact_id == bitrix_id && c.erasure_requested then
      { c with erasure_processed := true, processed_at := some now }
    else c)
  let st1 := { st with consents := consents' }
  let st2 ← delete_contact settings env country_code st1 bitrix_id "ARTICLE_17_ERASURE" now
  let contacts' := st2.contacts.map (fun c =>
    if c.bitrix_id == some bitrix_id then
      { c with first_name := .str "[REDACTED]", last_name := .str "[REDACTED]",
               phone := .vnone, email := .vnone, erasure_processed := true }
    else c)
  .ok { st2 with contacts := contacts' }

inductive SyncOutcome where
  | created
  | updated
  | deleted
deriving DecidableEq, Repr

def addOutcome (stats : Stats) : SyncOutcome → Stats
  | .created => { stats with created := stats.created + 1 }
  | .updated => { stats with updated := stats.updated + 1 }
  | .deleted => { stats with deleted := stats.deleted + 1 }

/-- The body of the per-contact `with transaction.atomic()` block in
`sync_church_contacts`: erasure short-circuit, then
`Church.objects.get(bitrix_id=contact['church_id'])` (a `KeyError` when the
pulled dict has no `church_id` key, which `_mask_contact_data` never emits),
then `Contact.objects.update_or_create` keyed by `bitrix_id`, then the
Article 30 processing record. -/
def pulledStep (settings : Settings) (env : RemoteEnv) (country_code processing_purpose : String)
    (now : Nat) (st : SyncState) (contact : Rec) : Except String (SyncState × SyncOutcome) := do
  let cid ← keyGet contact "id"
  if _is_erasure_requested st.consents cid then do
    let st' ← _process_erasure settings env country_code st cid now
    .ok (st', .deleted)
  else do
    let churchIdV ← keyGet contact "church_id"
    let church ←
      match st.churches.find? (fun ch => ch.bitrix_id == churchIdV) with
      | some ch => Except.ok ch
      | none => Except.error "Church.DoesNotExist"
    let first_name ← keyGet contact "first_name"
    let last_name ← keyGet contact "last_name"
    let phone ← keyGet contact "phone"
    let email ← keyGet contact "email"
    let religion := getD contact "religion" .vnone
    let sacrament := getD contact "sacrament_dates" (.vmap [])
    let burial := getD contact "burial_location" .vnone
    match st.contacts.find? (fun c => c.bitrix_id == some cid) with
    | some existing =>
        let updatedC :=
          { existing with
              first_name := first_name
              last_name := last_name
              phone := phone
              email := email
              church := church
              religion := religion
              sacrament_records := sacrament
              burial_location := burial
              updated_at := now }
        Except.ok
          ({ st with
              contacts := st.contacts.map (fun c => if c.pk = existing.pk then updatedC else c)
              processing_records := st.processing_records ++
                [⟨"contact", existing.pk, "sync_from_bitrix", country_code, processing_purpose, now⟩] },
           .updated)
    | none =>
        let newC : LocalContact := ⟨st.next_pk, some cid, first_name, last_name, phone, email,
            church, religion, sacrament, burial, false, now, now⟩
        Except.ok
          ({ st with
              contacts := st.contacts ++ [newC]
              next_pk := st.next_pk + 1
              processing_records := st.processing_records ++
                [⟨"contact", st.next_pk, "sync_from_bitrix", country_code, processing_purpose, now⟩] },
           .created)

/-- One iteration of the pull loop: the `transaction.atomic` block with its
per-contact `except Exception` handler — on any exception the transaction
rolls back (state unchanged) and `stats['errors']` is incremented. -/
def processPulled (settings : Settings) (env : RemoteEnv)
    (country_code processing_purpose : String) (now : Nat)
    (acc : SyncState × Stats) (contact : Rec) : SyncState × Stats :=
  match pulledStep settings env country_code processing_purpose now acc.1 contact with
  | .ok (st', outcome) => (st', addOutcome acc.2 outcome)
  | .error _ => (acc.1, { acc.2 with errors := acc.2.errors + 1 })

/-- The dictionaries `_get_local_changes` builds for each pushed contact. -/
def toPushDict (c : LocalContact) : Rec :=
  [("bitrix_id", c.bitrix_id.getD .vnone),
   ("first_name", c.first_name),
   ("last_name", c.last_name),
   ("phone", c.phone),
   ("email", c.email),
   ("religion", c.religion),
   ("sacrament_dates", c.sacrament_records),
   ("burial_location", c.burial_location),
   ("church_id", c.church.bitrix_id)]

/-- `BitrixSyncService._get_local_changes`: contacts of the partition,
restricted (when a checkpoint exists) by
`Q(created_at__gte=since) | Q(updated_at__gte=since) | Q(erasure_processed=True, updated_at__gte=since)`,
then filtered by Python truthiness of `c.bitrix_id`. -/
def _get_local_changes (country_code : String) (st : SyncState) (since : Option Nat) :
    List Rec :=
  let qs := st.contacts.filter (fun c => c.church.country_code == country_code)
  let qs :=
    match since with
    | none => qs
    | some t => qs.filter (fun c =>
        decide (t ≤ c.created_at) || decide (t ≤ c.updated_at)
        || (c.erasure_processed && decide (t ≤ c.updated_at)))
  (qs.filter (fun c => (c.bitrix_id.getD .vnone).truthy)).map toPushDict

/-- One push call of step 3 of `sync_church_contacts`, up to the remote
outcome: decorator check (the `update_contact` wrapper), `contact['bitrix_id']`,
payload construction, remote update. -/
def pushAttempt (settings : Settings) (consents : List Consent) (processing_purpose : String)
    (env : RemoteEnv) (now : Nat) (contact : Rec) : Except String Unit := do
  gdpr_check settings.cloud_env consents processing_purpose true now
  let cid ← keyGet contact "bitrix_id"
  let payload ← update_contact cid contact
  env.update payload

/-- One iteration of the push loop with its `except Exception` handler. -/
def pushOne (settings : Settings) (consents : List Consent) (processing_purpose : String)
    (env : RemoteEnv) (now : Nat) (stats : Stats) (contact : Rec) : Stats :=
  match pushAttempt settings consents processing_purpose env now contact with
  | .ok _ => { stats with updated := stats.updated + 1 }
  | .error _ => { stats with errors := stats.errors + 1 }

/-- Whether an `Except` computation succeeded. -/
def exceptOk {e a : Type} : Except e a → Bool
  | .ok _ => true
  | .error _ => false

/-- Appends the `BitrixSyncRecord.objects.create(...)` row of a finished pass. -/
def recordSync (st : SyncState) (country_code status : String) (stats : Option Stats)
    (error_message : Option String) (now : Nat) : SyncState :=
  { st with sync_records := st.sync_records ++
      [⟨"church_contact", country_code, status, stats, error_message, now⟩] }

/-- `BitrixSyncService.sync_church_contacts`, the whole pass (`runSync`):
checkpoint read, pull with per-record error absorption, push of local changes
with per-record error absorption, then the sync record.  Only a pull-phase
exception escapes the inner handlers; it is recorded with `status='failure'`
and re-raised.  A completed pass is recorded with `status='success'`
unconditionally, whatever `stats['errors']` is.  `country_code` is the
service's lowercased code; `now` is the pass time (`timezone.now()`). -/
def sync_church_contacts (settings : Settings) (country_code processing_purpose : String)
    (env : RemoteEnv) (now : Nat) (st : SyncState) : SyncState × Except String Stats :=
  let last_sync := get_last_sync st "church_contact" country_code
  match get_contacts settings st.consents country_code last_sync processing_purpose env now with
  | .error e => (recordSync st country_code "failure" none (some e) now, .error e)
  | .ok bitrix_contacts =>
      let pulled := bitrix_contacts.foldl
        (processPulled settings env country_code processing_purpose now) (st, ⟨0, 0, 0, 0⟩)
      let local_changes := _get_local_changes country_code pulled.1 last_sync
      let finalStats := local_changes.foldl
        (pushOne settings pulled.1.consents processing_purpose env now) pulled.2
      (recordSync pulled.1 country_code "success" (some finalStats) none now, .ok finalStats)

/-- `Bitrix24Client.MAX_RETRIES`. -/
def MAX_RETRIES : Nat := 3

/-- `Bitrix24Client.RETRY_DELAY` (1.5 seconds). -/
def RETRY_DELAY : ℚ := 3 / 2

/-- Observable trace of one `_make_request` call: how many attempts were made,
the `time.sleep` delays between them, and the final outcome. -/
structure RequestTrace where
  attempts : Nat
  delays : List ℚ
  result : Except String Value
deriving Repr

/-- `Bitrix24Client._make_request` from a given `retry_count`: `outcome k` is
what attempt `k` returns (the response, or the `requests` exception).  On an
exception with `retry_count < MAX_RETRIES` it sleeps
`RETRY_DELAY * (retry_count + 1)` and recurses; otherwise it raises
`BitrixAPIError`. -/
def make_request_from (outcome : Nat → Except String Value) (retry_count : Nat) : RequestTrace :=
  match outcome retry_count with
  | .ok r => ⟨1, [], .ok r⟩
  | .error e =>
      if h : retry_count < MAX_RETRIES then
        let rest := make_request_from outcome (retry_count + 1)
        ⟨rest.attempts + 1, RETRY_DELAY * ((retry_count : ℚ) + 1) :: rest.delays, rest.result⟩
      else
        ⟨1, [], .error ("Bitrix24 API error: " ++ e)⟩
termination_by MAX_RETRIES - retry_count
decreasing_by simp [MAX_RETRIES] at h ⊢; omega

/-- A `_make_request` call as issued (initial `retry_count = 0`). -/
def make_request (outcome : Nat → Except String Value) : RequestTrace :=
  make_request_from outcome 0

/-!
## Concrete fixtures

States, remote environments and records used by the concrete evaluations
below. -/

def c2_env : RemoteEnv :=
  ⟨fun _ => .ok [[("ID", .str "r7"), ("NAME", .str "Stale")]],
   fun _ => .ok [], fun _ => .ok (), fun _ => .ok ()⟩
def c2_state : SyncState :=
  ⟨[⟨1, some (.str "r7"), .str "[REDACTED]", .str "[REDACTED]", .vnone, .vnone,
     ⟨.str "ch", "lt"⟩, .vnone, .vmap [], .vnone, true, 1, 3⟩],
   [⟨.str "ch", "lt"⟩],
   [⟨"country_code_param", "P", 5, .vnone, false, false, none⟩,
    ⟨"lt", "P", 1, .str "r7", true, true, some 3⟩],
   [], [], [], 2⟩
def c4_state : SyncState :=
  ⟨[], [], [⟨"country_code_param", "P", 9, .vnone, false, false, none⟩],
   [⟨"church_contact", "lt", "success", some ⟨1, 0, 0, 0⟩, none, 4⟩], [], [], 1⟩
def c4_env : RemoteEnv :=
  ⟨fun _ => .error "Bitrix24 API error: ConnectionError: unreachable",
   fun _ => .ok [], fun _ => .ok (), fun _ => .ok ()⟩
def c3_state : SyncState :=
  ⟨[⟨1, some (.str "r2"), .str "Ona", .str "Onaite", .str "", .str "",
     ⟨.str "ch1", "lt"⟩, .str "Catholic", .vmap [], .vmap [("cemetery", .sstr "X")],
     false, 2, 6⟩],
   [⟨.str "ch1", "lt"⟩],
   [⟨"country_code_param", "BITRIX_SYNC_LT", 9, .vnone, false, false, none⟩],
   [⟨"church_contact", "lt", "success", some ⟨0, 0, 0, 0⟩, none, 5⟩],
   [], [], 2⟩
def c3_env : RemoteEnv :=
  ⟨fun _ => .ok [], fun _ => .error "unavailable",
   fun _ => .error "Bitrix24 API error: ConnectionError", fun _ => .error "unavailable"⟩
def c5_raw_contact : Rec :=
  [("ID", .str "r1"), ("NAME", .str "Jonas"), ("LAST_NAME", .str "Jonaitis"),
   ("UF_CRM_1565773321", .str "Catholic/RomanRite")]
def c5_state : SyncState :=
  ⟨[], [⟨.str "ch1", "lt"⟩],
   [⟨"country_code_param", "BITRIX_SYNC_LT", 10, .vnone, false, false, none⟩],
   [], [], [], 1⟩
def c5_env : RemoteEnv :=
  ⟨fun _ => .ok [c5_raw_contact], fun _ => .error "unavailable",
   fun _ => .error "unavailable", fun _ => .error "unavailable"⟩
def c7_state : SyncState :=
  ⟨[⟨3, some (.str "r9"), .str "[REDACTED]", .str "[REDACTED]", .vnone, .vnone,
     ⟨.str "ch1", "lt"⟩, .str "Catholic", .vmap [], .vnone, true, 1, 7⟩],
   [⟨.str "ch1", "lt"⟩], [], [], [], [], 4⟩

/-!
## Theorems
-/


theorem lookupKey?_eq_none {α : Type} (k : String) (l : List (String × α)) :
    lookupKey? k l = none ↔ k ∉ keysOf l := by
  induction l with
  | nil => simp [lookupKey?, keysOf]
  | cons kv rest ih =>
    obtain ⟨k', v⟩ := kv
    by_cases h : k = k' <;> simp [lookupKey?, keysOf, h, ih]
theorem mem_of_lookupKey? {α : Type} {l : List (String × α)} {k : String} {v : α}
    (h : lookupKey? k l = some v) : (k, v) ∈ l := by
  induction l with
  | nil => simp [lookupKey?] at h
  | cons kv rest ih =>
    obtain ⟨k', v'⟩ := kv
    by_cases hk : k = k'
    · simp [lookupKey?, hk] at h
      simp [hk, h]
    · simp [lookupKey?, hk] at h
      exact List.mem_cons_of_mem _ (ih h)
theorem lookupKey?_mem_of_nodup {α : Type} {l : List (String × α)}
    (hn : (keysOf l).Nodup) {k : String} {v : α} (hm : (k, v) ∈ l) :
    lookupKey? k l = some v := by
  induction l with
  | nil => cases hm
  | cons kv rest ih =>
    obtain ⟨k', v'⟩ := kv
    simp only [keysOf, List.map_cons, List.nodup_cons] at hn
    rcases List.mem_cons.mp hm with h1 | h1
    · rw [Prod.mk.injEq] at h1
      obtain ⟨rfl, rfl⟩ := h1
      simp [lookupKey?]
    · have hkmem : k ∈ keysOf rest := List.mem_map_of_mem Prod.fst h1
      have hk : k ≠ k' := fun he => hn.1 (he ▸ hkmem)
      simp [lookupKey?, hk]
      exact ih hn.2 h1
theorem lookupKey?_perm {α : Type} {l l' : List (String × α)} (hp : l.Perm l')
    (hn : (keysOf l).Nodup) (k : String) : lookupKey? k l = lookupKey? k l' := by
  have hn' : (keysOf l').Nodup := ((hp.map Prod.fst).nodup_iff).mp hn
  cases h : lookupKey? k l with
  | some v =>
    exact (lookupKey?_mem_of_nodup hn' (hp.mem_iff.mp (mem_of_lookupKey? h))).symm
  | none =>
    have : k ∉ keysOf l := (lookupKey?_eq_none k l).mp h
    have : k ∉ keysOf l' := fun hm => this (((hp.map Prod.fst).mem_iff).mpr hm)
    exact ((lookupKey?_eq_none k l').mpr this).symm
theorem lookupKey?_setKey_self (r : Rec) (k : String) (v : Value) :
    lookupKey? k (setKey r k v) = some v := by
  induction r with
  | nil => simp [setKey, lookupKey?]
  | cons kv rest ih =>
    obtain ⟨k', v'⟩ := kv
    by_cases h : k' = k
    · simp [setKey, h, lookupKey?]
    · have h2 : ¬ (k = k') := fun he => h he.symm
      simp [setKey, h, lookupKey?, h2, ih]
theorem lookupKey?_setKey_ne (r : Rec) {k k' : String} (h : k' ≠ k) (v : Value) :
    lookupKey? k' (setKey r k v) = lookupKey? k' r := by
  induction r with
  | nil => simp [setKey, lookupKey?, h]
  | cons kv rest ih =>
    obtain ⟨k₀, v₀⟩ := kv
    by_cases h0 : k₀ = k
    · subst h0
      simp [setKey, lookupKey?, h]
    · by_cases h1 : k' = k₀ <;> simp [setKey, h0, lookupKey?, h1, ih]
theorem keysOf_setKey_of_mem {r : Rec} {k : String} (h : k ∈ keysOf r) (v : Value) :
    keysOf (setKey r k v) = keysOf r := by
  induction r with
  | nil => cases h
  | cons kv rest ih =>
    obtain ⟨k₀, v₀⟩ := kv
    by_cases h0 : k₀ = k
    · simp [setKey, h0, keysOf]
    · have hmem : k ∈ keysOf rest := by
        rcases List.mem_cons.mp h with h1 | h1
        · exact absurd h1.symm h0
        · exact h1
      have h3 := ih hmem
      simp only [keysOf, List.map_cons] at h3 ⊢
      simp [setKey, h0, List.map_cons, h3]
theorem setKey_eq_map {r : Rec} (hn : (keysOf r).Nodup) {k : String} (hm : k ∈ keysOf r)
    (v : Value) :
    setKey r k v = r.map (fun kv => if kv.1 = k then (kv.1, v) else kv) := by
  induction r with
  | nil => cases hm
  | cons kv rest ih =>
    obtain ⟨k₀, v₀⟩ := kv
    simp only [keysOf, List.map_cons, List.nodup_cons] at hn
    by_cases h0 : k₀ = k
    · subst h0
      have : ∀ kv' ∈ rest, (fun kv : String × Value => if kv.1 = k₀ then (kv.1, v) else kv) kv' = kv' := by
        intro kv' hkv'
        have : kv'.1 ≠ k₀ := fun he => hn.1 (he ▸ List.mem_map_of_mem Prod.fst hkv')
        simp [this]
      simp [setKey, List.map_cons]
      exact (List.map_congr_left this).symm ▸ (List.map_id rest).symm ▸ rfl
    · have hmem : k ∈ keysOf rest := by
        rcases List.mem_cons.mp hm with h1 | h1
        · exact absurd h1.symm h0
        · exact h1
      have hne : ¬ (k₀ = k) := h0
      simp [setKey, h0, List.map_cons, ih hn.2 hmem]
theorem lookupKey?_map {α β : Type} (g : String → α → β) (l : List (String × α)) (k : String) :
    lookupKey? k (l.map (fun kv => (kv.1, g kv.1 kv.2))) = (lookupKey? k l).map (g k) := by
  induction l with
  | nil => simp [lookupKey?]
  | cons kv rest ih =>
    obtain ⟨k₀, v₀⟩ := kv
    by_cases h : k = k₀ <;> simp [lookupKey?, h, ih]
theorem lookupKey?_mem_keys {α : Type} {l : List (String × α)} {k : String} {v : α}
    (h : lookupKey? k l = some v) : k ∈ keysOf l :=
  List.mem_map_of_mem Prod.fst (mem_of_lookupKey? h)
theorem applyMasking_eq (rules : List (String × Option Masker)) (d : Rec) (log : List LogEntry)
    (hd : (keysOf d).Nodup) (hr : (keysOf rules).Nodup) :
    applyMasking rules (d, log) =
      (d.map (fun kv => (kv.1, maskStep (lookupKey? kv.1 rules) kv.2)),
       log ++ rules.filterMap (maskLogOf d)) := by
  induction rules generalizing d log with
  | nil =>
    simp only [applyMasking, List.filterMap_nil, List.append_nil, Prod.mk.injEq]
    refine ⟨?_, trivial⟩
    have hid : ∀ kv ∈ d, ((kv.1, maskStep (lookupKey? kv.1 ([] : List (String × Option Masker))) kv.2) : String × Value) = kv := by
      intro kv _
      simp [maskStep, lookupKey?]
    rw [List.map_congr_left hid]
    simp
  | cons fr rest ih =>
    obtain ⟨f, om⟩ := fr
    simp only [keysOf, List.map_cons, List.nodup_cons] at hr
    obtain ⟨hf, hr'⟩ := hr
    have hr'' : (keysOf rest).Nodup := hr'
    simp only [applyMasking]
    cases om with
    | none =>
      simp only [maskLoopStep]
      rw [ih d log hd hr'']
      simp only [Prod.mk.injEq]
      refine ⟨List.map_congr_left ?_, ?_⟩
      · intro kv hkv
        by_cases hk : kv.1 = f
        · have hnone : lookupKey? f rest = none :=
            (lookupKey?_eq_none _ _).mpr (by simpa [keysOf] using hf)
          simp [lookupKey?, hk, maskStep, hnone]
        · simp [lookupKey?, hk]
      · simp [maskLogOf, List.filterMap_cons]
    | some m =>
      cases hl : lookupKey? f d with
      | none =>
        simp only [maskLoopStep, hl]
        rw [ih d log hd hr'']
        simp only [Prod.mk.injEq]
        have hfd : f ∉ keysOf d := (lookupKey?_eq_none _ _).mp hl
        refine ⟨List.map_congr_left ?_, ?_⟩
        · intro kv hkv
          have hk : kv.1 ≠ f := fun he =>
            hfd (he ▸ List.mem_map_of_mem Prod.fst hkv)
          simp [lookupKey?, hk]
        · simp [maskLogOf, hl, List.filterMap_cons]
      | some v =>
        have hfd : f ∈ keysOf d := lookupKey?_mem_keys hl
        cases hm : m v with
        | ok v' =>
          simp only [maskLoopStep, hl, hm]
          have hkeys : keysOf (setKey d f v') = keysOf d := keysOf_setKey_of_mem hfd _
          rw [ih _ _ (hkeys ▸ hd) hr'']
          simp only [Prod.mk.injEq]
          refine ⟨?_, ?_⟩
          · rw [setKey_eq_map hd hfd, List.map_map]
            apply List.map_congr_left
            intro kv hkv
            by_cases hk : kv.1 = f
            · have hv : kv.2 = v := by
                have : lookupKey? kv.1 d = some kv.2 := lookupKey?_mem_of_nodup hd hkv
                rw [hk, hl] at this
                exact (Option.some.injEq .. ▸ this).symm
              have hnone : lookupKey? f rest = none :=
                (lookupKey?_eq_none _ _).mpr (by simpa [keysOf] using hf)
              simp [Function.comp, hk, lookupKey?, maskStep, hnone, hm, hv]
            · simp [Function.comp, hk, lookupKey?]
          · have hcongr : ∀ fr' ∈ rest, maskLogOf (setKey d f v') fr' = maskLogOf d fr' := by
              intro fr' hfr'
              have hk : fr'.1 ≠ f := fun he =>
                hf (he ▸ List.mem_map_of_mem Prod.fst hfr')
              simp only [maskLogOf, lookupKey?_setKey_ne d hk]
            rw [List.filterMap_congr hcongr]
            simp [maskLogOf, hl, hm, List.filterMap_cons]
        | error e =>
          simp only [maskLoopStep, hl, hm]
          have hkeys : keysOf (setKey d f Value.vnone) = keysOf d := keysOf_setKey_of_mem hfd _
          rw [ih _ _ (hkeys ▸ hd) hr'']
          simp only [Prod.mk.injEq]
          refine ⟨?_, ?_⟩
          · rw [setKey_eq_map hd hfd, List.map_map]
            apply List.map_congr_left
            intro kv hkv
            by_cases hk : kv.1 = f
            · have hv : kv.2 = v := by
                have : lookupKey? kv.1 d = some kv.2 := lookupKey?_mem_of_nodup hd hkv
                rw [hk, hl] at this
                exact (Option.some.injEq .. ▸ this).symm
              have hnone : lookupKey? f rest = none :=
                (lookupKey?_eq_none _ _).mpr (by simpa [keysOf] using hf)
              simp [Function.comp, hk, lookupKey?, maskStep, hnone, hm, hv]
            · simp [Function.comp, hk, lookupKey?]
          · have hcongr : ∀ fr' ∈ rest, maskLogOf (setKey d f Value.vnone) fr' = maskLogOf d fr' := by
              intro fr' hfr'
              have hk : fr'.1 ≠ f := fun he =>
                hf (he ▸ List.mem_map_of_mem Prod.fst hfr')
              simp only [maskLogOf, lookupKey?_setKey_ne d hk]
            rw [List.filterMap_congr hcongr]
            simp [maskLogOf, hl, hm, List.filterMap_cons]
theorem special_fields_keys_nodup (cc : String) : (keysOf (special_fields cc)).Nodup := by
  by_cases h : cc = "LT" <;> simp [special_fields, h, keysOf]
theorem mask_special_category_data_eq (d : Rec) (cc : String) (hd : (keysOf d).Nodup) :
    mask_special_category_data d cc =
      (d.map (fun kv => (kv.1, maskStep (lookupKey? kv.1 (special_fields cc)) kv.2)),
       (special_fields cc).filterMap (maskLogOf d)) := by
  have h := applyMasking_eq (special_fields cc) d [] hd (special_fields_keys_nodup cc)
  simpa [mask_special_category_data] using h
theorem applyMasking_lookup_none (rules : List (String × Option Masker)) (d : Rec)
    (log : List LogEntry) (k : String) (h : lookupKey? k d = none) :
    lookupKey? k (applyMasking rules (d, log)).1 = none := by
  induction rules generalizing d log with
  | nil => simpa [applyMasking]
  | cons fr rest ih =>
    obtain ⟨f, om⟩ := fr
    simp only [applyMasking]
    cases om with
    | none =>
      simp only [maskLoopStep]
      exact ih d log h
    | some m =>
      cases hl : lookupKey? f d with
      | none =>
        simp only [maskLoopStep, hl]
        exact ih d log h
      | some v =>
        have hk : k ≠ f := fun he => by rw [he, hl] at h; cases h
        cases hm : m v with
        | ok v' =>
          simp only [maskLoopStep, hl, hm]
          exact ih _ _ (by rw [lookupKey?_setKey_ne d hk]; exact h)
        | error e =>
          simp only [maskLoopStep, hl, hm]
          exact ih _ _ (by rw [lookupKey?_setKey_ne d hk]; exact h)
/-- C9: the masking transform is deterministic and pure, fields absent from
the rule set pass through unchanged, and applying the per-field rules in any
order (any permutation of the rule list) yields the same output mapping. -/
theorem C9_masking_pure_order_independent (d : Rec) (cc : String)
    (rules : List (String × Option Masker))
    (hd : (keysOf d).Nodup) (hperm : rules.Perm (special_fields cc)) :
    mask_special_category_data d cc = mask_special_category_data d cc
    ∧ (applyMasking rules (d, [])).1 = (mask_special_category_data d cc).1
    ∧ ∀ k v, lookupKey? k d = some v → lookupKey? k (special_fields cc) = none →
        lookupKey? k (mask_special_category_data d cc).1 = some v := by
  refine ⟨rfl, ?_, ?_⟩
  · have hr : (keysOf rules).Nodup :=
      ((hperm.map Prod.fst).nodup_iff).mpr (special_fields_keys_nodup cc)
    rw [applyMasking_eq rules d [] hd hr, mask_special_category_data_eq d cc hd]
    exact List.map_congr_left (fun kv _ => by rw [lookupKey?_perm hperm hr kv.1])
  · intro k v hv hnone
    rw [mask_special_category_data_eq d cc hd]
    simp only
    rw [lookupKey?_map (fun k v => maskStep (lookupKey? k (special_fields cc)) v) d k, hv]
    simp [maskStep, hnone]
theorem C9_witness :
    (keysOf [("foo", Value.str "x")]).Nodup
    ∧ ((special_fields "LT").reverse.Perm (special_fields "LT"))
    ∧ (applyMasking (special_fields "LT").reverse ([("foo", Value.str "x")], [])).1
        = (mask_special_category_data [("foo", Value.str "x")] "LT").1
    ∧ lookupKey? "foo" (mask_special_category_data [("foo", Value.str "x")] "LT").1
        = some (Value.str "x") := by
  have h := C9_masking_pure_order_independent [("foo", Value.str "x")] "LT"
    (special_fields "LT").reverse (by decide) (List.reverse_perm _)
  exact ⟨by decide, List.reverse_perm _, h.2.1, h.2.2 "foo" (Value.str "x") rfl rfl⟩
/-- C10: for country code LT, a record carrying `confession_records` keeps
that field unchanged through masking: the rule's transform is `None`, so the
application loop skips it and the raw value survives. -/
theorem C10_confession_records_survives (d : Rec) (v : Value)
    (hd : (keysOf d).Nodup) (hv : lookupKey? "confession_records" d = some v) :
    lookupKey? "confession_records" (special_fields "LT") = some none
    ∧ lookupKey? "confession_records" (mask_special_category_data d "LT").1 = some v := by
  refine ⟨rfl, ?_⟩
  rw [mask_special_category_data_eq d "LT" hd]
  simp only
  rw [lookupKey?_map (fun k v => maskStep (lookupKey? k (special_fields "LT")) v) d _, hv]
  simp [maskStep]
  rfl
theorem C10_witness :
    (keysOf [("confession_records", Value.str "secret")]).Nodup
    ∧ lookupKey? "confession_records"
        (mask_special_category_data [("confession_records", Value.str "secret")] "LT").1
      = some (Value.str "secret") :=
  ⟨by decide,
   (C10_confession_records_survives [("confession_records", Value.str "secret")]
      (Value.str "secret") (by decide) rfl).2⟩
/-- C6 (amended): when a field's masking transform throws, the output for that
field is nulled — the raw value is never propagated — the rest of the record
is still processed normally, and a message is logged at error level (the
source calls `logger.error`, not `logger.warning`). -/
theorem C6_masking_failure_nulls_field (d : Rec) (cc f : String) (m : Masker)
    (v : Value) (e : String) (hd : (keysOf d).Nodup)
    (hrule : lookupKey? f (special_fields cc) = some (some m))
    (hv : lookupKey? f d = some v) (hthrow : m v = .error e) :
    lookupKey? f (mask_special_category_data d cc).1 = some Value.vnone
    ∧ ⟨LogLevel.error, "Masking failed for " ++ f ++ ": " ++ e⟩
        ∈ (mask_special_category_data d cc).2
    ∧ (mask_special_category_data d cc).1
        = d.map (fun kv => (kv.1, maskStep (lookupKey? kv.1 (special_fields cc)) kv.2)) := by
  rw [mask_special_category_data_eq d cc hd]
  refine ⟨?_, ?_, rfl⟩
  · rw [lookupKey?_map (fun k v => maskStep (lookupKey? k (special_fields cc)) v) d f, hv]
    simp [maskStep, hrule, hthrow]
  · exact List.mem_filterMap.mpr
      ⟨(f, some m), mem_of_lookupKey? hrule, by simp [maskLogOf, hv, hthrow]⟩
theorem C6_witness :
    next_of_kin_rule (.vmap [("relationship", .sstr "spouse"), ("phone", .sstr "861234567")])
      = .error "NameError: name re is not defined"
    ∧ lookupKey? "next_of_kin"
        (mask_special_category_data
          [("next_of_kin", .vmap [("relationship", .sstr "spouse"), ("phone", .sstr "861234567")])]
          "LT").1
      = some Value.vnone
    ∧ ⟨LogLevel.error, "Masking failed for next_of_kin: NameError: name re is not defined"⟩
        ∈ (mask_special_category_data
          [("next_of_kin", .vmap [("relationship", .sstr "spouse"), ("phone", .sstr "861234567")])]
          "LT").2 := by
  have h := C6_masking_failure_nulls_field
    [("next_of_kin", .vmap [("relationship", .sstr "spouse"), ("phone", .sstr "861234567")])]
    "LT" "next_of_kin" next_of_kin_rule
    (.vmap [("relationship", .sstr "spouse"), ("phone", .sstr "861234567")])
    "NameError: name re is not defined" (by decide) rfl rfl rfl
  exact ⟨rfl, h.1, h.2.1⟩
/-- C6 counterexample: at a concrete throwing transform the source logs at
error level, not warning level — the claim's "a warning is logged" fails. -/
theorem C6_counterexample_error_not_warning :
    (mask_special_category_data
        [("next_of_kin", .vmap [("relationship", .sstr "spouse"), ("phone", .sstr "861234567")])]
        "LT").2
      = [⟨LogLevel.error, "Masking failed for next_of_kin: NameError: name re is not defined"⟩]
    ∧ ((mask_special_category_data
        [("next_of_kin", .vmap [("relationship", .sstr "spouse"), ("phone", .sstr "861234567")])]
        "LT").2.filter (fun en => en.level == LogLevel.warning)) = [] := by
  exact ⟨rfl, rfl⟩
/-- C1: evaluation at the failing input — a locally modified record whose
religion is `Catholic/RomanRite` is pushed by `update_contact` with the raw
value in the transmitted `UF_CRM_1565773321` slot, although `religion` has a
masking rule in every partition's rule set whose output is `Catholic`. -/
theorem C1_religion_pushed_unmasked :
    update_contact (.str "77")
        [("first_name", .str "Ona"), ("religion", .str "Catholic/RomanRite")]
      = .ok [("ID", .str "77"), ("NAME", .str "Ona"), ("LAST_NAME", .str ""),
             ("PHONE", .varr [[("VALUE", .sstr ""), ("VALUE_TYPE", .sstr "WORK")]]),
             ("EMAIL", .varr [[("VALUE", .sstr ""), ("VALUE_TYPE", .sstr "WORK")]]),
             ("UF_CRM_1565773321", .str "Catholic/RomanRite")]
    ∧ lookupKey? "religion" (special_fields "lt") = some religion_rule
    ∧ religion_rule (.str "Catholic/RomanRite") = .ok (.str "Catholic")
    ∧ (Value.str "Catholic/RomanRite") ≠ (Value.str "Catholic") :=
  ⟨rfl, rfl, rfl, by decide⟩
theorem natMax?_append_le (l : List Nat) (t : Nat) (h : ∀ x ∈ l, x ≤ t) :
    natMax? (l ++ [t]) = some t := by
  induction l with
  | nil => rfl
  | cons a rest ih =>
    have ha : a ≤ t := h a (List.mem_cons_self a rest)
    have hrest := ih (fun x hx => h x (List.mem_cons_of_mem a hx))
    simp only [natMax?, List.cons_append, List.foldr_cons] at hrest ⊢
    rw [hrest]
    simp [Nat.max_eq_right ha]
theorem get_last_sync_record_fail (st : SyncState) (cc : String) (err : Option String)
    (now : Nat) (entity : String) (cc' : String) :
    get_last_sync (recordSync st cc "failure" none err now) entity cc'
      = get_last_sync st entity cc' := by
  unfold get_last_sync recordSync
  simp [List.filter_append]
theorem get_last_sync_record_success (st : SyncState) (cc : String) (stats : Stats)
    (now : Nat) (hclock : ∀ r ∈ st.sync_records, r.timestamp ≤ now) :
    get_last_sync (recordSync st cc "success" (some stats) none now) "church_contact" cc
      = some now := by
  unfold get_last_sync recordSync
  simp only [List.filter_append]
  have hfe : (List.filter
      (fun r => r.entity_type == "church_contact" && r.country_code == cc && r.status == "success")
      [(⟨"church_contact", cc, "success", some stats, none, now⟩ : SyncRecordEntry)])
      = [⟨"church_contact", cc, "success", some stats, none, now⟩] := by
    simp
  rw [hfe, List.map_append]
  apply natMax?_append_le
  intro x hx
  rcases List.mem_map.mp hx with ⟨r, hr, hts⟩
  exact hts ▸ hclock r (List.mem_of_mem_filter hr)
theorem filter_map_invariant {α : Type} (l : List α) (f : α → α) (p : α → Bool)
    (h : ∀ a ∈ l, p (f a) = p a ∧ (p a = true → f a = a)) :
    (l.map f).filter p = l.filter p := by
  induction l with
  | nil => rfl
  | cons a rest ih =>
    have ha := h a (List.mem_cons_self a rest)
    have hrest := ih (fun x hx => h x (List.mem_cons_of_mem a hx))
    simp only [List.map_cons, List.filter_cons, ha.1]
    cases hp : p a with
    | false => simpa [hp] using hrest
    | true => simp [hp, ha.2 hp, hrest]
theorem delete_contact_shape (settings : Settings) (env : RemoteEnv) (cc : String)
    (st : SyncState) (cid : Value) (purpose : String) (now : Nat) (st2 : SyncState)
    (h : delete_contact settings env cc st cid purpose now = .ok st2) :
    st2.contacts = st.contacts ∧ st2.consents = st.consents
    ∧ st2.sync_records = st.sync_records := by
  unfold delete_contact at h
  cases hg : gdpr_check settings.cloud_env st.consents purpose false now with
  | error e => rw [hg] at h; simp [bind, Except.bind] at h
  | ok u =>
    cases u
    rw [hg] at h
    simp only [bind, Except.bind] at h
    by_cases hp : purpose ≠ "ARTICLE_17_ERASURE"
    · simp [hp] at h
    · rw [not_not] at hp
      subst hp
      rw [if_neg (by simp)] at h
      cases hgc : env.get_contact cid <;> rw [hgc] at h <;>
        cases hd : env.delete cid <;> rw [hd] at h <;>
        simp [bind, Except.bind] at h <;>
        (first
          | exact absurd h (by simp)
          | (rw [← h]; exact ⟨rfl, rfl, rfl⟩))
theorem process_erasure_shape (settings : Settings) (env : RemoteEnv) (cc : String)
    (st : SyncState) (cid : Value) (now : Nat) (st2 : SyncState)
    (h : _process_erasure settings env cc st cid now = .ok st2) :
    st2.contacts = st.contacts.map (fun c =>
        if c.bitrix_id == some cid then
          { c with first_name := .str "[REDACTED]", last_name := .str "[REDACTED]",
                   phone := .vnone, email := .vnone, erasure_processed := true }
        else c)
    ∧ st2.consents = st.consents.map (fun c =>
        if c.bitrix_contact_id == cid && c.erasure_requested then
          { c with erasure_processed := true, processed_at := some now }
        else c)
    ∧ st2.sync_records = st.sync_records := by
  unfold _process_erasure at h
  simp only [bind, Except.bind] at h
  cases hd : delete_contact settings env cc
      { st with consents := st.consents.map (fun c =>
          if c.bitrix_contact_id == cid && c.erasure_requested then
            { c with erasure_processed := true, processed_at := some now }
          else c) } cid "ARTICLE_17_ERASURE" now with
  | error e =>
    rw [hd] at h
    simp at h
  | ok stx =>
    rw [hd] at h
    simp only [Except.ok.injEq] at h
    have hs := delete_contact_shape _ _ _ _ _ _ _ _ hd
    subst h
    exact ⟨by rw [hs.1], by rw [hs.2.1], by rw [hs.2.2]⟩
theorem erasure_pending_ne (consents : List Consent) (cid r : Value)
    (hguard : _is_erasure_requested consents cid = true)
    (hproc : ∀ c ∈ consents, c.bitrix_contact_id = r → c.erasure_requested = true →
        c.erasure_processed = true) :
    cid ≠ r := by
  intro he
  subst he
  rcases List.any_eq_true.mp hguard with ⟨c, hc, hcp⟩
  simp only [Bool.and_eq_true, beq_iff_eq, Bool.not_eq_true'] at hcp
  exact absurd (hproc c hc hcp.1.1 hcp.1.2) (by simp [hcp.2])
theorem pulledStep_preserves_erased (settings : Settings) (env : RemoteEnv)
    (cc purpose : String) (now : Nat) (st : SyncState) (contact : Rec) (r : Value)
    (hchurch : lookupKey? "church_id" contact = none)
    (hproc : ∀ c ∈ st.consents, c.bitrix_contact_id = r → c.erasure_requested = true →
        c.erasure_processed = true)
    (st' : SyncState) (o : SyncOutcome)
    (h : pulledStep settings env cc purpose now st contact = .ok (st', o)) :
    st'.contacts.filter (fun c => c.bitrix_id == some r)
      = st.contacts.filter (fun c => c.bitrix_id == some r)
    ∧ ∀ c ∈ st'.consents, c.bitrix_contact_id = r → c.erasure_requested = true →
        c.erasure_processed = true := by
  unfold pulledStep at h
  cases hid : keyGet contact "id" with
  | error e => rw [hid] at h; simp [bind, Except.bind] at h
  | ok cid =>
    rw [hid] at h
    simp only [bind, Except.bind] at h
    cases hguard : _is_erasure_requested st.consents cid with
    | true =>
      rw [hguard] at h
      rw [if_pos rfl] at h
      cases hpe : _process_erasure settings env cc st cid now with
      | error e => rw [hpe] at h; simp at h
      | ok st2 =>
        rw [hpe] at h
        simp only [Except.ok.injEq, Prod.mk.injEq] at h
        obtain ⟨hst, ho⟩ := h
        subst hst
        have hs := process_erasure_shape _ _ _ _ _ _ _ hpe
        have hne : cid ≠ r := erasure_pending_ne st.consents cid r hguard hproc
        constructor
        · rw [hs.1]
          apply filter_map_invariant
          intro c hc
          by_cases hcid : c.bitrix_id = some cid
          · have hpc : (c.bitrix_id == some r) = false := by
              simp [hcid, fun he : cid = r => hne he]
            refine ⟨?_, fun hpt => by rw [hpt] at hpc; cases hpc⟩
            simp [hcid, hpc]
          · have hfc : (if c.bitrix_id == some cid then
                { c with first_name := Value.str "[REDACTED]", last_name := Value.str "[REDACTED]",
                         phone := Value.vnone, email := Value.vnone, erasure_processed := true }
                else c) = c := by simp [hcid]
            rw [hfc]
            exact ⟨rfl, fun _ => rfl⟩
        · rw [hs.2.1]
          intro c hc hcr hreq
          rcases List.mem_map.mp hc with ⟨c0, hc0, hfc⟩
          by_cases hc0m : (c0.bitrix_contact_id == cid && c0.erasure_requested) = true
          · rw [← hfc]
            simp [hc0m]
          · rw [← hfc] at hcr hreq ⊢
            simp only [hc0m, if_false, Bool.false_eq_true] at hcr hreq ⊢
            exact hproc c0 hc0 hcr hreq
    | false =>
      rw [hguard] at h
      rw [if_neg (by simp)] at h
      have hcg : keyGet contact "church_id" = .error ("KeyError: " ++ "church_id") := by
        unfold keyGet
        rw [hchurch]
      rw [hcg] at h
      simp at h
theorem pullPhase_preserves_erased (settings : Settings) (env : RemoteEnv)
    (cc purpose : String) (now : Nat) (r : Value) (bcs : List Rec)
    (hchurch : ∀ c ∈ bcs, lookupKey? "church_id" c = none) :
    ∀ (st : SyncState) (stats : Stats),
      (∀ c ∈ st.consents, c.bitrix_contact_id = r → c.erasure_requested = true →
          c.erasure_processed = true) →
      (bcs.foldl (processPulled settings env cc purpose now) (st, stats)).1.contacts.filter
          (fun c => c.bitrix_id == some r)
        = st.contacts.filter (fun c => c.bitrix_id == some r) := by
  induction bcs with
  | nil => intro st stats _; rfl
  | cons contact rest ih =>
    intro st stats hproc
    have hch := hchurch contact (List.mem_cons_self contact rest)
    have hchr : ∀ c ∈ rest, lookupKey? "church_id" c = none :=
      fun c hc => hchurch c (List.mem_cons_of_mem contact hc)
    simp only [List.foldl_cons]
    cases hstep : pulledStep settings env cc purpose now st contact with
    | error e =>
      have hpp : processPulled settings env cc purpose now (st, stats) contact
          = (st, { stats with errors := stats.errors + 1 }) := by
        unfold processPulled
        rw [hstep]
      rw [hpp]
      exact ih hchr st _ hproc
    | ok pr =>
      obtain ⟨st', o⟩ := pr
      have hpres := pulledStep_preserves_erased settings env cc purpose now st contact r
        hch hproc st' o hstep
      have hpp : processPulled settings env cc purpose now (st, stats) contact
          = (st', addOutcome stats o) := by
        unfold processPulled
        rw [hstep]
      rw [hpp]
      rw [ih hchr st' _ hpres.2]
      exact hpres.1
theorem mapExcept_mem {α β : Type} (f : α → Except String β) (l : List α) (res : List β)
    (h : mapExcept f l = .ok res) : ∀ b ∈ res, ∃ a ∈ l, f a = .ok b := by
  induction l generalizing res with
  | nil =>
    simp only [mapExcept, Except.ok.injEq] at h
    subst h
    simp
  | cons a as ih =>
    simp only [mapExcept, bind, Except.bind] at h
    cases hfa : f a with
    | error e => rw [hfa] at h; simp at h
    | ok b0 =>
      rw [hfa] at h
      cases hrest : mapExcept f as with
      | error e => rw [hrest] at h; simp at h
      | ok bs =>
        rw [hrest] at h
        simp only [Except.ok.injEq] at h
        subst h
        intro b hb
        rcases List.mem_cons.mp hb with hb | hb
        · exact ⟨a, List.mem_cons_self a as, hb ▸ hfa⟩
        · rcases ih bs hrest b hb with ⟨a', ha', hfa'⟩
          exact ⟨a', List.mem_cons_of_mem a ha', hfa'⟩
theorem mask_contact_no_church_id (cc : String) (raw : Rec) (p : Rec × List LogEntry)
    (h : _mask_contact_data cc raw = .ok p) : lookupKey? "church_id" p.1 = none := by
  unfold _mask_contact_data at h
  cases hid : keyGet raw "ID" with
  | error e => rw [hid] at h; simp [bind, Except.bind] at h
  | ok idv =>
    rw [hid] at h
    simp only [bind, Except.bind] at h
    cases hph : extractFirstValue (lookupKey? "PHONE" raw) with
    | error e => rw [hph] at h; simp at h
    | ok phv =>
      rw [hph] at h
      cases hem : extractFirstValue (lookupKey? "EMAIL" raw) with
      | error e => rw [hem] at h; simp at h
      | ok emv =>
        rw [hem] at h
        simp only [Except.ok.injEq] at h
        subst h
        exact applyMasking_lookup_none (special_fields cc) _ [] "church_id" rfl
theorem get_contacts_no_church_id (settings : Settings) (consents : List Consent)
    (cc : String) (last_sync : Option Nat) (purpose : String) (env : RemoteEnv) (now : Nat)
    (bcs : List Rec)
    (h : get_contacts settings consents cc last_sync purpose env now = .ok bcs) :
    ∀ c ∈ bcs, lookupKey? "church_id" c = none := by
  unfold get_contacts at h
  cases hg : gdpr_check settings.cloud_env consents purpose true now with
  | error e => rw [hg] at h; simp [bind, Except.bind] at h
  | ok u =>
    cases u
    rw [hg] at h
    simp only [bind, Except.bind] at h
    cases hl : env.list_contacts last_sync with
    | error e => rw [hl] at h; simp at h
    | ok raws =>
      rw [hl] at h
      simp only [] at h
      cases hm : mapExcept (_mask_contact_data cc) raws with
      | error e => rw [hm] at h; simp at h
      | ok masked =>
        rw [hm] at h
        simp only [Except.ok.injEq] at h
        subst h
        intro c hc
        rcases List.mem_map.mp hc with ⟨pr, hpr, hc1⟩
        rcases mapExcept_mem _ _ _ hm pr hpr with ⟨raw, _, hraw⟩
        exact hc1 ▸ mask_contact_no_church_id cc raw pr hraw
/-- C2: for a remote identifier `r` whose every erasure request has been
processed, a sync pass never re-creates or updates a local record with that
remote id, whatever the remote returns: the pulled dicts never carry a
`church_id` key, so the upsert path raises `KeyError` before
`update_or_create`, and the erasure path cannot fire for `r` because
`_is_erasure_requested` demands an unprocessed request. -/
theorem C2_erasure_terminal (settings : Settings) (cc purpose : String) (env : RemoteEnv)
    (now : Nat) (st : SyncState) (r : Value)
    (hproc : ∀ c ∈ st.consents, c.bitrix_contact_id = r → c.erasure_requested = true →
        c.erasure_processed = true) :
    (sync_church_contacts settings cc purpose env now st).1.contacts.filter
        (fun c => c.bitrix_id == some r)
      = st.contacts.filter (fun c => c.bitrix_id == some r) := by
  unfold sync_church_contacts
  simp only []
  cases hg : get_contacts settings st.consents cc (get_last_sync st "church_contact" cc)
      purpose env now with
  | error e =>
    rfl
  | ok bcs =>
    simp only []
    have hchurch := get_contacts_no_church_id _ _ _ _ _ _ _ _ hg
    have hfold := pullPhase_preserves_erased settings env cc purpose now r bcs hchurch st
      ⟨0, 0, 0, 0⟩ hproc
    simpa [recordSync] using hfold
theorem C2_witness :
    (c2_state.consents.all (fun c => !(c.bitrix_contact_id == Value.str "r7")
        || !c.erasure_requested || c.erasure_processed)) = true
    ∧ (sync_church_contacts ⟨"selfhosted"⟩ "lt" "P" c2_env 9 c2_state).1.contacts.filter
        (fun c => c.bitrix_id == some (Value.str "r7"))
      = c2_state.contacts.filter (fun c => c.bitrix_id == some (Value.str "r7")) :=
  ⟨by decide,
   C2_erasure_terminal ⟨"selfhosted"⟩ "lt" "P" c2_env 9 c2_state (Value.str "r7")
     (by decide)⟩
/-- C4: when the decorator check passes but the remote list call has failed
after the retry budget (the post-retry `BitrixAPIError` of `_make_request`),
the whole pass aborts: the error propagates to the caller of the pass, only a
`failure` sync record is appended — which `get_last_sync` ignores, so the
checkpoint is unchanged — and the local contacts are untouched. -/
theorem C4_pull_failure_aborts_pass (settings : Settings) (cc purpose : String)
    (env : RemoteEnv) (now : Nat) (st : SyncState) (e : String)
    (hgdpr : gdpr_check settings.cloud_env st.consents purpose true now = .ok ())
    (herr : env.list_contacts (get_last_sync st "church_contact" cc) = .error e) :
    (sync_church_contacts settings cc purpose env now st).2 = .error e
    ∧ get_last_sync (sync_church_contacts settings cc purpose env now st).1 "church_contact" cc
        = get_last_sync st "church_contact" cc
    ∧ (sync_church_contacts settings cc purpose env now st).1.contacts = st.contacts := by
  have hget : get_contacts settings st.consents cc (get_last_sync st "church_contact" cc)
      purpose env now = .error e := by
    unfold get_contacts
    rw [hgdpr]
    simp only [bind, Except.bind]
    rw [herr]
  unfold sync_church_contacts
  simp only []
  rw [hget]
  exact ⟨rfl, get_last_sync_record_fail st cc (some e) now "church_contact" cc, rfl⟩
theorem C4_witness :
    gdpr_check "selfhosted" c4_state.consents "P" true 9 = .ok ()
    ∧ c4_env.list_contacts (get_last_sync c4_state "church_contact" "lt")
        = .error "Bitrix24 API error: ConnectionError: unreachable"
    ∧ (sync_church_contacts ⟨"selfhosted"⟩ "lt" "P" c4_env 9 c4_state).2
        = .error "Bitrix24 API error: ConnectionError: unreachable"
    ∧ get_last_sync (sync_church_contacts ⟨"selfhosted"⟩ "lt" "P" c4_env 9 c4_state).1
        "church_contact" "lt" = some 4
    ∧ get_last_sync c4_state "church_contact" "lt" = some 4 := by
  have h := C4_pull_failure_aborts_pass ⟨"selfhosted"⟩ "lt" "P" c4_env 9 c4_state
    "Bitrix24 API error: ConnectionError: unreachable" rfl rfl
  exact ⟨rfl, rfl, h.1, h.2.1.trans rfl, rfl⟩
theorem pulledStep_ok_shape (settings : Settings) (env : RemoteEnv) (cc purpose : String)
    (now : Nat) (st : SyncState) (contact : Rec) (st' : SyncState) (o : SyncOutcome)
    (h : pulledStep settings env cc purpose now st contact = .ok (st', o)) :
    st'.sync_records = st.sync_records := by
  unfold pulledStep at h
  cases hid : keyGet contact "id" with
  | error e => rw [hid] at h; simp [bind, Except.bind] at h
  | ok cid =>
    rw [hid] at h
    simp only [bind, Except.bind] at h
    cases hguard : _is_erasure_requested st.consents cid with
    | true =>
      rw [hguard, if_pos rfl] at h
      cases hpe : _process_erasure settings env cc st cid now with
      | error e => rw [hpe] at h; simp at h
      | ok st2 =>
        rw [hpe] at h
        simp only [Except.ok.injEq, Prod.mk.injEq] at h
        obtain ⟨hst, _⟩ := h
        subst hst
        exact (process_erasure_shape _ _ _ _ _ _ _ hpe).2.2
    | false =>
      rw [hguard, if_neg (by simp)] at h
      cases hch : keyGet contact "church_id" with
      | error e => rw [hch] at h; simp at h
      | ok chv =>
        rw [hch] at h
        simp only [] at h
        cases hf : st.churches.find? (fun ch => ch.bitrix_id == chv) with
        | none => rw [hf] at h; simp at h
        | some church =>
          rw [hf] at h
          simp only [] at h
          cases h1 : keyGet contact "first_name" with
          | error e => rw [h1] at h; simp at h
          | ok fn =>
            rw [h1] at h
            simp only [] at h
            cases h2 : keyGet contact "last_name" with
            | error e => rw [h2] at h; simp at h
            | ok ln =>
              rw [h2] at h
              simp only [] at h
              cases h3 : keyGet contact "phone" with
              | error e => rw [h3] at h; simp at h
              | ok ph =>
                rw [h3] at h
                simp only [] at h
                cases h4 : keyGet contact "email" with
                | error e => rw [h4] at h; simp at h
                | ok em =>
                  rw [h4] at h
                  simp only [] at h
                  cases h5 : st.contacts.find? (fun c => c.bitrix_id == some cid) with
                  | some existing =>
                    rw [h5] at h
                    simp only [Except.ok.injEq, Prod.mk.injEq] at h
                    obtain ⟨hst, _⟩ := h
                    subst hst
                    rfl
                  | none =>
                    rw [h5] at h
                    simp only [Except.ok.injEq, Prod.mk.injEq] at h
                    obtain ⟨hst, _⟩ := h
                    subst hst
                    rfl
theorem pullPhase_sync_records (settings : Settings) (env : RemoteEnv)
    (cc purpose : String) (now : Nat) (bcs : List Rec) :
    ∀ (st : SyncState) (stats : Stats),
      (bcs.foldl (processPulled settings env cc purpose now) (st, stats)).1.sync_records
        = st.sync_records := by
  induction bcs with
  | nil => intro st stats; rfl
  | cons contact rest ih =>
    intro st stats
    simp only [List.foldl_cons]
    cases hstep : pulledStep settings env cc purpose now st contact with
    | error e =>
      have hpp : processPulled settings env cc purpose now (st, stats) contact
          = (st, { stats with errors := stats.errors + 1 }) := by
        unfold processPulled
        rw [hstep]
      rw [hpp]
      exact ih st _
    | ok pr =>
      obtain ⟨st', o⟩ := pr
      have hpp : processPulled settings env cc purpose now (st, stats) contact
          = (st', addOutcome stats o) := by
        unfold processPulled
        rw [hstep]
      rw [hpp, ih st' _]
      exact pulledStep_ok_shape _ _ _ _ _ _ _ _ _ hstep
theorem pushPhase_tally (settings : Settings) (consents : List Consent) (purpose : String)
    (env : RemoteEnv) (now : Nat) (l : List Rec) :
    ∀ stats : Stats,
      (l.foldl (pushOne settings consents purpose env now) stats).errors
        = stats.errors
          + l.countP (fun c => !(exceptOk (pushAttempt settings consents purpose env now c)))
      ∧ (l.foldl (pushOne settings consents purpose env now) stats).updated
        = stats.updated
          + l.countP (fun c => exceptOk (pushAttempt settings consents purpose env now c)) := by
  induction l with
  | nil => intro stats; simp
  | cons c rest ih =>
    intro stats
    simp only [List.foldl_cons, List.countP_cons]
    cases hp : pushAttempt settings consents purpose env now c with
    | ok u =>
      have hone : pushOne settings consents purpose env now stats c
          = { stats with updated := stats.updated + 1 } := by
        unfold pushOne
        rw [hp]
      rw [hone]
      have hr := ih { stats with updated := stats.updated + 1 }
      constructor
      · rw [hr.1]
        simp [exceptOk, hp]
      · rw [hr.2]
        simp only [exceptOk, hp]
        simp
        omega
    | error e =>
      have hone : pushOne settings consents purpose env now stats c
          = { stats with errors := stats.errors + 1 } := by
        unfold pushOne
        rw [hp]
      rw [hone]
      have hr := ih { stats with errors := stats.errors + 1 }
      constructor
      · rw [hr.1]
        simp only [exceptOk, hp]
        simp
        omega
      · rw [hr.2]
        simp [exceptOk, hp]
/-- C3 counterexample: a local record (`r2`, modified at 6, checkpoint 5) whose
push fails after all retries is tallied as `errored = 1` and the pass
continues — but the pass is still recorded with `status='success'`, so the
checkpoint advances from 5 to the pass time 9 and the next window excludes the
record: it is not retried, contradicting the claim. -/
theorem C3_counterexample_checkpoint_advances :
    get_last_sync c3_state "church_contact" "lt" = some 5
    ∧ (_get_local_changes "lt" c3_state (some 5)).length = 1
    ∧ (sync_church_contacts ⟨"selfhosted"⟩ "lt" "BITRIX_SYNC_LT" c3_env 9 c3_state).2
        = .ok ⟨0, 0, 0, 1⟩
    ∧ get_last_sync
        (sync_church_contacts ⟨"selfhosted"⟩ "lt" "BITRIX_SYNC_LT" c3_env 9 c3_state).1
        "church_contact" "lt" = some 9
    ∧ _get_local_changes "lt"
        (sync_church_contacts ⟨"selfhosted"⟩ "lt" "BITRIX_SYNC_LT" c3_env 9 c3_state).1
        (some 9) = [] :=
  ⟨rfl, rfl, rfl, rfl, rfl⟩
/-- C3 (amended): when the pull succeeds, a push failure after the retry
budget does not abort the pass: the pass always returns an ok report in which
`errors` grows by exactly the number of failing pushes and `updated` by the
number of succeeding ones; however the pass is recorded as `success` at the
pass time regardless, so (with a monotone clock) the checkpoint advances to
`now` even when pushes errored, and the failing window is not retried. -/
theorem C3_push_failure_absorbed_checkpoint_advances (settings : Settings)
    (cc purpose : String) (env : RemoteEnv) (now : Nat) (st : SyncState) (bcs : List Rec)
    (hpull : get_contacts settings st.consents cc (get_last_sync st "church_contact" cc)
        purpose env now = .ok bcs)
    (hclock : ∀ sr ∈ st.sync_records, sr.timestamp ≤ now) :
    (sync_church_contacts settings cc purpose env now st).2
      = .ok ((_get_local_changes cc
            (bcs.foldl (processPulled settings env cc purpose now) (st, ⟨0, 0, 0, 0⟩)).1
            (get_last_sync st "church_contact" cc)).foldl
          (pushOne settings
            (bcs.foldl (processPulled settings env cc purpose now) (st, ⟨0, 0, 0, 0⟩)).1.consents
            purpose env now)
          (bcs.foldl (processPulled settings env cc purpose now) (st, ⟨0, 0, 0, 0⟩)).2)
    ∧ (match (sync_church_contacts settings cc purpose env now st).2 with
        | .ok stats => stats.errors
        | .error _ => 0)
      = (bcs.foldl (processPulled settings env cc purpose now) (st, ⟨0, 0, 0, 0⟩)).2.errors
        + (_get_local_changes cc
            (bcs.foldl (processPulled settings env cc purpose now) (st, ⟨0, 0, 0, 0⟩)).1
            (get_last_sync st "church_contact" cc)).countP
          (fun c => !(exceptOk (pushAttempt settings
            (bcs.foldl (processPulled settings env cc purpose now) (st, ⟨0, 0, 0, 0⟩)).1.consents
            purpose env now c)))
    ∧ get_last_sync (sync_church_contacts settings cc purpose env now st).1
        "church_contact" cc = some now := by
  have hrun : sync_church_contacts settings cc purpose env now st
      = (recordSync
          (bcs.foldl (processPulled settings env cc purpose now) (st, ⟨0, 0, 0, 0⟩)).1
          cc "success"
          (some ((_get_local_changes cc
              (bcs.foldl (processPulled settings env cc purpose now) (st, ⟨0, 0, 0, 0⟩)).1
              (get_last_sync st "church_contact" cc)).foldl
            (pushOne settings
              (bcs.foldl (processPulled settings env cc purpose now) (st, ⟨0, 0, 0, 0⟩)).1.consents
              purpose env now)
            (bcs.foldl (processPulled settings env cc purpose now) (st, ⟨0, 0, 0, 0⟩)).2))
          none now,
        .ok ((_get_local_changes cc
            (bcs.foldl (processPulled settings env cc purpose now) (st, ⟨0, 0, 0, 0⟩)).1
            (get_last_sync st "church_contact" cc)).foldl
          (pushOne settings
            (bcs.foldl (processPulled settings env cc purpose now) (st, ⟨0, 0, 0, 0⟩)).1.consents
            purpose env now)
          (bcs.foldl (processPulled settings env cc purpose now) (st, ⟨0, 0, 0, 0⟩)).2)) := by
    unfold sync_church_contacts
    simp only []
    rw [hpull]
  refine ⟨?_, ?_, ?_⟩
  · rw [hrun]
  · rw [hrun]
    simp only []
    exact (pushPhase_tally settings _ purpose env now _ _).1
  · rw [hrun]
    simp only []
    apply get_last_sync_record_success
    intro sr hsr
    rw [pullPhase_sync_records settings env cc purpose now bcs st ⟨0, 0, 0, 0⟩] at hsr
    exact hclock sr hsr
theorem C3_witness :
    get_contacts ⟨"selfhosted"⟩ c3_state.consents "lt"
        (get_last_sync c3_state "church_contact" "lt") "BITRIX_SYNC_LT" c3_env 9 = .ok []
    ∧ (c3_state.sync_records.all (fun sr => decide (sr.timestamp ≤ 9))) = true
    ∧ get_last_sync (sync_church_contacts ⟨"selfhosted"⟩ "lt" "BITRIX_SYNC_LT" c3_env 9 c3_state).1
        "church_contact" "lt" = some 9 := by
  have h := C3_push_failure_absorbed_checkpoint_advances ⟨"selfhosted"⟩ "lt" "BITRIX_SYNC_LT"
    c3_env 9 c3_state [] rfl (by decide)
  exact ⟨rfl, by decide, h.2.2⟩
/-- C5: the `religion` rule behaves as the claim states — `Catholic/RomanRite`
masks to `Catholic`, a slash-free value passes through — and the pulled record
is masked accordingly; but the scenario's expected outcome fails on the code:
the pulled dict (whose keys `_mask_contact_data` fixes) carries no `church_id`
key, so `contact['church_id']` raises `KeyError` inside the pull loop, the
record is tallied as an error, and no local record is created — the report of
the checkpoint-absent single-record pull shows `created = 0, errors = 1`
instead of `created = 1`. -/
theorem C5_pull_scenario_no_record_created :
    religion_rule (.str "Catholic/RomanRite") = .ok (.str "Catholic")
    ∧ religion_rule (.str "Orthodox") = .ok (.str "Orthodox")
    ∧ _mask_contact_data "lt" c5_raw_contact
        = .ok ([("id", .str "r1"), ("first_name", .str "Jonas"),
                ("last_name", .str "Jonaitis"), ("phone", .str ""), ("email", .str ""),
                ("religion", .str "Catholic"), ("sacrament_dates", .vmap []),
                ("burial_location", .vnone)], [])
    ∧ get_last_sync c5_state "church_contact" "lt" = none
    ∧ (sync_church_contacts ⟨"selfhosted"⟩ "lt" "BITRIX_SYNC_LT" c5_env 10 c5_state).2
        = .ok ⟨0, 0, 0, 1⟩
    ∧ (sync_church_contacts ⟨"selfhosted"⟩ "lt" "BITRIX_SYNC_LT" c5_env 10 c5_state).1.contacts
        = [] :=
  ⟨rfl, rfl, rfl, rfl, rfl, rfl⟩
/-- C7 counterexample: an erasure-processed local record updated after the
checkpoint, with a remote id, is included in the computed push set — the
claim's "have not been erased" exclusion fails on `_get_local_changes`, whose
third queryset branch includes erasure-processed records explicitly. -/
theorem C7_counterexample_erased_in_push_set :
    (c7_state.contacts.all (fun c => c.erasure_processed)) = true
    ∧ _get_local_changes "lt" c7_state (some 5)
        = [[("bitrix_id", .str "r9"), ("first_name", .str "[REDACTED]"),
            ("last_name", .str "[REDACTED]"), ("phone", .vnone), ("email", .vnone),
            ("religion", .str "Catholic"), ("sacrament_dates", .vmap []),
            ("burial_location", .vnone), ("church_id", .str "ch1")]] :=
  ⟨rfl, rfl⟩
/-- C7 (amended): with checkpoint `t`, the push set is exactly the partition's
local records created or updated at-or-after `t` whose remote id is truthy —
regardless of the erasure flag (erasure-processed records are included, not
excluded; the erasure branch of the queryset filter is subsumed by the
`updated_at` branch). -/
theorem C7_push_set_characterization (cc : String) (st : SyncState) (t : Nat) :
    _get_local_changes cc st (some t)
      = (st.contacts.filter (fun c => c.church.country_code == cc
            && (decide (t ≤ c.created_at) || decide (t ≤ c.updated_at))
            && (c.bitrix_id.getD .vnone).truthy)).map toPushDict := by
  unfold _get_local_changes
  simp only []
  rw [List.filter_filter, List.filter_filter]
  congr 1
  apply List.filter_congr
  intro c _
  by_cases h1 : t ≤ c.created_at <;> by_cases h2 : t ≤ c.updated_at <;>
    cases hc : c.erasure_processed <;>
    simp [h1, h2, hc, Bool.and_comm, Bool.and_assoc]
/-- C8: each remote call makes at most `MAX_RETRIES + 1 = 4` attempts; the
delay slept before the k-th retry is `RETRY_DELAY * k`, linearly increasing;
when every attempt fails the call raises `BitrixAPIError` carrying the last
attempt's error; a failed push is attributed to the individual record (the
error tally grows, the pass continues), while a failed pull propagates as the
failure of the whole pass. -/
theorem C8_retry_policy (outcome : Nat → Except String Value) :
    (make_request outcome).attempts ≤ MAX_RETRIES + 1
    ∧ (make_request outcome).delays
        = (List.range ((make_request outcome).attempts - 1)).map
            (fun k => RETRY_DELAY * ((k : ℚ) + 1))
    ∧ ((∀ k, exceptOk (outcome k) = false) → ∀ e, outcome MAX_RETRIES = .error e →
        (make_request outcome).result = .error ("Bitrix24 API error: " ++ e))
    ∧ (∀ (settings : Settings) (consents : List Consent) (purpose : String)
        (env : RemoteEnv) (now : Nat) (stats : Stats) (c : Rec) (e : String),
        pushAttempt settings consents purpose env now c = .error e →
        pushOne settings consents purpose env now stats c
          = { stats with errors := stats.errors + 1 })
    ∧ (∀ (settings : Settings) (cc purpose : String) (env : RemoteEnv) (now : Nat)
        (st : SyncState) (e : String),
        get_contacts settings st.consents cc (get_last_sync st "church_contact" cc)
            purpose env now = .error e →
        (sync_church_contacts settings cc purpose env now st).2 = .error e) := by
  have hmain : (make_request outcome).attempts ≤ MAX_RETRIES + 1
      ∧ (make_request outcome).delays
          = (List.range ((make_request outcome).attempts - 1)).map
              (fun k => RETRY_DELAY * ((k : ℚ) + 1))
      ∧ ((∀ k, exceptOk (outcome k) = false) → ∀ e, outcome MAX_RETRIES = .error e →
          (make_request outcome).result = .error ("Bitrix24 API error: " ++ e)) := by
    rcases h0 : outcome 0 with e0 | r0
    · rcases h1 : outcome 1 with e1 | r1
      · rcases h2 : outcome 2 with e2 | r2
        · rcases h3 : outcome 3 with e3 | r3
          · have htr : make_request outcome
                = ⟨4, [RETRY_DELAY * (((0 : Nat) : ℚ) + 1),
                       RETRY_DELAY * (((1 : Nat) : ℚ) + 1),
                       RETRY_DELAY * (((2 : Nat) : ℚ) + 1)],
                   .error ("Bitrix24 API error: " ++ e3)⟩ := by
              unfold make_request
              rw [make_request_from, h0]
              simp only [dif_pos (by decide : (0 : Nat) < MAX_RETRIES)]
              rw [make_request_from, h1]
              simp only [dif_pos (by decide : (1 : Nat) < MAX_RETRIES)]
              rw [make_request_from, h2]
              simp only [dif_pos (by decide : (2 : Nat) < MAX_RETRIES)]
              rw [make_request_from, h3]
              simp only [dif_neg (by decide : ¬ (3 : Nat) < MAX_RETRIES)]
            rw [htr]
            refine ⟨by norm_num [MAX_RETRIES], rfl, fun _ e he => ?_⟩
            rw [show MAX_RETRIES = 3 from rfl, h3] at he
            cases he
            rfl
          · have htr : make_request outcome
                = ⟨4, [RETRY_DELAY * (((0 : Nat) : ℚ) + 1),
                       RETRY_DELAY * (((1 : Nat) : ℚ) + 1),
                       RETRY_DELAY * (((2 : Nat) : ℚ) + 1)],
                   .ok r3⟩ := by
              unfold make_request
              rw [make_request_from, h0]
              simp only [dif_pos (by decide : (0 : Nat) < MAX_RETRIES)]
              rw [make_request_from, h1]
              simp only [dif_pos (by decide : (1 : Nat) < MAX_RETRIES)]
              rw [make_request_from, h2]
              simp only [dif_pos (by decide : (2 : Nat) < MAX_RETRIES)]
              rw [make_request_from, h3]
            rw [htr]
            refine ⟨by norm_num [MAX_RETRIES], rfl, fun hall _ _ => ?_⟩
            have hk := hall 3
            rw [h3] at hk
            simp [exceptOk] at hk
        · have htr : make_request outcome
              = ⟨3, [RETRY_DELAY * (((0 : Nat) : ℚ) + 1),
                     RETRY_DELAY * (((1 : Nat) : ℚ) + 1)],
                 .ok r2⟩ := by
            unfold make_request
            rw [make_request_from, h0]
            simp only [dif_pos (by decide : (0 : Nat) < MAX_RETRIES)]
            rw [make_request_from, h1]
            simp only [dif_pos (by decide : (1 : Nat) < MAX_RETRIES)]
            rw [make_request_from, h2]
          rw [htr]
          refine ⟨by norm_num [MAX_RETRIES], rfl, fun hall _ _ => ?_⟩
          have hk := hall 2
          rw [h2] at hk
          simp [exceptOk] at hk
      · have htr : make_request outcome
            = ⟨2, [RETRY_DELAY * (((0 : Nat) : ℚ) + 1)], .ok r1⟩ := by
          unfold make_request
          rw [make_request_from, h0]
          simp only [dif_pos (by decide : (0 : Nat) < MAX_RETRIES)]
          rw [make_request_from, h1]
        rw [htr]
        refine ⟨by norm_num [MAX_RETRIES], rfl, fun hall _ _ => ?_⟩
        have hk := hall 1
        rw [h1] at hk
        simp [exceptOk] at hk
    · have htr : make_request outcome = ⟨1, [], .ok r0⟩ := by
        unfold make_request
        rw [make_request_from, h0]
      rw [htr]
      refine ⟨by norm_num [MAX_RETRIES], rfl, fun hall _ _ => ?_⟩
      have hk := hall 0
      rw [h0] at hk
      simp [exceptOk] at hk
  refine ⟨hmain.1, hmain.2.1, hmain.2.2, ?_, ?_⟩
  · intro settings consents purpose env now stats c e hp
    unfold pushOne
    rw [hp]
  · intro settings cc purpose env now st e hg
    unfold sync_church_contacts
    simp only []
    rw [hg]
theorem C8_witness :
    (make_request (fun _ => .error "timeout")).attempts ≤ MAX_RETRIES + 1
    ∧ (make_request (fun _ => .error "timeout")).attempts = 4
    ∧ (make_request (fun _ => .error "timeout")).delays = [3 / 2, 3, 9 / 2]
    ∧ (make_request (fun _ => .error "timeout")).result
        = .error ("Bitrix24 API error: " ++ "timeout")
    ∧ pushOne ⟨"GKE"⟩ [] "P"
        ⟨fun _ => .error "x", fun _ => .error "x", fun _ => .error "x", fun _ => .error "x"⟩
        0 ⟨0, 0, 0, 0⟩ [("bitrix_id", .str "r")] = ⟨0, 0, 0, 1⟩
    ∧ (sync_church_contacts ⟨"selfhosted"⟩ "lt" "P"
        ⟨fun _ => .error "x", fun _ => .error "x", fun _ => .error "x", fun _ => .error "x"⟩
        0 ⟨[], [], [], [], [], [], 0⟩).2
        = .error "GDPRComplianceError: Missing valid consent for purpose P" := by
  have h := C8_retry_policy (fun _ => .error "timeout")
  have htr : make_request (fun _ => .error "timeout")
      = ⟨4, [RETRY_DELAY * (((0 : Nat) : ℚ) + 1), RETRY_DELAY * (((1 : Nat) : ℚ) + 1),
             RETRY_DELAY * (((2 : Nat) : ℚ) + 1)],
         .error ("Bitrix24 API error: " ++ "timeout")⟩ := by
    unfold make_request
    rw [make_request_from]
    simp only [dif_pos (by decide : (0 : Nat) < MAX_RETRIES)]
    rw [make_request_from]
    simp only [dif_pos (by decide : (1 : Nat) < MAX_RETRIES)]
    rw [make_request_from]
    simp only [dif_pos (by decide : (2 : Nat) < MAX_RETRIES)]
    rw [make_request_from]
    simp only [dif_neg (by decide : ¬ (3 : Nat) < MAX_RETRIES)]
  refine ⟨h.1, by rw [htr], ?_, by rw [htr], ?_, ?_⟩
  · rw [htr]
    norm_num [RETRY_DELAY]
  · exact h.2.2.2.1 ⟨"GKE"⟩ [] "P"
      ⟨fun _ => .error "x", fun _ => .error "x", fun _ => .error "x", fun _ => .error "x"⟩
      0 ⟨0, 0, 0, 0⟩ [("bitrix_id", .str "r")]
      "DataSovereigntyViolation: Stateless processing attempted for country_code_param data in GKE"
      rfl
  · exact h.2.2.2.2 ⟨"selfhosted"⟩ "lt" "P"
      ⟨fun _ => .error "x", fun _ => .error "x", fun _ => .error "x", fun _ => .error "x"⟩
      0 ⟨[], [], [], [], [], [], 0⟩
      "GDPRComplianceError: Missing valid consent for purpose P" rfl
